import Mathlib

/-!
Shallow embedding of the nockchain-jammer job orchestrator
(`src/api/src/main.rs` and `src/api/src/jammer.rs`).

Paths are modelled as `String`, file contents as `List Nat` (bytes) or
`String`, and every externally visible operation of the pipeline is
recorded in an explicit `Event` trace.  Fallible environment operations
(filesystem, RPC, decoding) are supplied by explicit "world" records so
each embedded function is a pure, executable Lean function of its world.
-/

/-- Byte-wise lexicographic comparison of char lists, mirroring the byte
order Rust uses when sorting `PathBuf`s of sibling files. -/
def charsLe : List Char → List Char → Bool
  | [], _ => true
  | _ :: _, [] => false
  | a :: as, b :: bs =>
    if a.toNat < b.toNat then true
    else if b.toNat < a.toNat then false
    else charsLe as bs

/-- Path order used by `files.sort()` in `collect_hashable_files`. -/
def pathLe (a b : String) : Bool := charsLe a.data b.data

/-- Propositional form of `pathLe`, for sortedness statements. -/
def PathLe (a b : String) : Prop := pathLe a b = true

instance : DecidableRel PathLe := fun a b => inferInstanceAs (Decidable (_ = true))

instance : IsTotal String PathLe := by
  constructor
  intro a b
  unfold PathLe pathLe
  obtain ⟨l1⟩ := a
  obtain ⟨l2⟩ := b
  show charsLe l1 l2 = true ∨ charsLe l2 l1 = true
  induction l1 generalizing l2 with
  | nil => left; rfl
  | cons a as ih =>
    cases l2 with
    | nil => right; rfl
    | cons b bs =>
      simp only [charsLe]
      rcases Nat.lt_trichotomy a.toNat b.toNat with h | h | h
      · left; simp [h]
      · have hne : ¬ a.toNat < b.toNat := by omega
        have hne2 : ¬ b.toNat < a.toNat := by omega
        rcases ih bs with h2 | h2
        · left; simp [hne, hne2, h2]
        · right; simp [hne, hne2, h2]
      · right; simp [h, Nat.lt_asymm h]

instance : IsTrans String PathLe := by
  constructor
  intro a b c h1 h2
  unfold PathLe pathLe at h1 h2 ⊢
  obtain ⟨l1⟩ := a
  obtain ⟨l2⟩ := b
  obtain ⟨l3⟩ := c
  revert h1 h2
  show charsLe l1 l2 = true → charsLe l2 l3 = true → charsLe l1 l3 = true
  induction l1 generalizing l2 l3 with
  | nil => intros; rfl
  | cons a as ih =>
    intro h12 h23
    cases l2 with
    | nil => simp [charsLe] at h12
    | cons b bs =>
      cases l3 with
      | nil => simp [charsLe] at h23
      | cons c cs =>
        simp only [charsLe] at h12 h23 ⊢
        by_cases hab : a.toNat < b.toNat
        · by_cases hbc : b.toNat < c.toNat
          · have hac : a.toNat < c.toNat := Nat.lt_trans hab hbc
            simp [hac]
          · by_cases hcb : c.toNat < b.toNat
            · simp [hbc, hcb] at h23
            · have hac : a.toNat < c.toNat := by omega
              simp [hac]
        · by_cases hba : b.toNat < a.toNat
          · simp [hab, hba] at h12
          · by_cases hbc : b.toNat < c.toNat
            · have hac : a.toNat < c.toNat := by omega
              simp [hac]
            · by_cases hcb : c.toNat < b.toNat
              · simp [hbc, hcb] at h23
              · have hac1 : ¬ a.toNat < c.toNat := by omega
                have hac2 : ¬ c.toNat < a.toNat := by omega
                simp only [hab, hba, if_false, if_neg] at h12
                simp only [hbc, hcb, if_false, if_neg] at h23
                simp only [hac1, hac2, if_false, if_neg]
                exact ih bs cs h12 h23

instance : IsAntisymm String PathLe := by
  constructor
  intro a b h1 h2
  unfold PathLe pathLe at h1 h2
  obtain ⟨l1⟩ := a
  obtain ⟨l2⟩ := b
  congr 1
  revert h1 h2
  show charsLe l1 l2 = true → charsLe l2 l1 = true → l1 = l2
  induction l1 generalizing l2 with
  | nil =>
    intro _ h21
    cases l2 with
    | nil => rfl
    | cons b bs => simp [charsLe] at h21
  | cons a as ih =>
    intro h12 h21
    cases l2 with
    | nil => simp [charsLe] at h12
    | cons b bs =>
      simp only [charsLe] at h12 h21
      by_cases hab : a.toNat < b.toNat
      · have hba : ¬ b.toNat < a.toNat := by omega
        simp [hab, hba] at h21
      · by_cases hba : b.toNat < a.toNat
        · simp [hab, hba] at h12
        · have hn : a.toNat = b.toNat := by omega
          have heq : a = b :=
            Char.eq_of_val_eq (UInt32.eq_of_toBitVec_eq (BitVec.eq_of_toNat_eq hn))
          simp only [hab, hba, if_false, if_neg] at h12 h21
          rw [heq, ih bs h12 h21]

instance : IsRefl String PathLe := by
  constructor
  intro a
  rcases total_of PathLe a a with h | h <;> exact h

/-- The sort used on the collected file list (`files.sort()`). -/
def sortPaths (l : List String) : List String := List.insertionSort PathLe l

/-- The file-name component of a path: everything after the last slash
(models Rust `Path::file_name` for the well-formed paths the jammer builds). -/
def fileNameOf (path : String) : String :=
  String.mk ((path.data.reverse.takeWhile (fun c => c ≠ '/')).reverse)

/-- The directory part of a path, including the trailing slash (the
complement of `fileNameOf`). -/
def dirPartOf (path : String) : String :=
  String.mk ((path.data.reverse.dropWhile (fun c => c ≠ '/')).reverse)

/-- Splits a REVERSED file name at its last dot: returns
(reversed extension, reversed stem).  Follows Rust `Path::extension`
semantics: `none` when there is no dot, or when the only dot is the
leading character of the name (hidden files such as `.jam`). -/
def revExtSplit : List Char → Option (List Char × List Char)
  | [] => none
  | c :: rest =>
    if c = '.' then
      if rest.isEmpty then none else some ([], rest)
    else
      match revExtSplit rest with
      | none => none
      | some (e, st) => some (c :: e, st)

/-- Rust `Path::extension` on a file name. -/
def extensionOf (name : String) : Option String :=
  match revExtSplit name.data.reverse with
  | none => none
  | some (e, _) => some (String.mk e.reverse)

/-- Rust `Path::file_stem` on a file name. -/
def fileStemOf (name : String) : String :=
  match revExtSplit name.data.reverse with
  | none => name
  | some (_, st) => String.mk st.reverse

/-- Rust `Path::with_extension ext` (used for the manifest's sibling
temporary path): replaces the file name's extension, or appends one if
the name has none. -/
def withExtension (path ext : String) : String :=
  dirPartOf path ++ fileStemOf (fileNameOf path) ++ "." ++ ext

/-- The `.jam` filter of `collect_hashable_files`
(`path.extension().is_some_and(|ext| ext == "jam")`). -/
def hasJamExt (path : String) : Bool :=
  match extensionOf (fileNameOf path) with
  | some e => e == "jam"
  | none => false

/-- Helper for `relOf`: removes `root` from the front of `file`,
character by character, or fails. -/
def chopStart : List Char → List Char → Option (List Char)
  | [], rest => some rest
  | _ :: _, [] => none
  | a :: as, b :: bs => if a = b then chopStart as bs else none

/-- Rust `file.strip_prefix(html_root).unwrap_or(file)` as used in
`write_manifest_sync`: the path relative to `html_root` when the file
lies under it, otherwise the unchanged path. -/
def relOf (root file : String) : String :=
  match chopStart (root ++ "/").data file.data with
  | some rest => String.mk rest
  | none => file

/-- Lower-case hex digit, as produced by `hex::encode`. -/
def hexDigitChar (n : Nat) : Char :=
  if n < 10 then Char.ofNat (48 + n) else Char.ofNat (87 + n)

/-- Lower-case hex encoding of a byte string (`hex::encode`). -/
def hexEncode (bs : List Nat) : String :=
  String.mk ((bs.map (fun b => [hexDigitChar (b / 16), hexDigitChar (b % 16)])).flatten)

/-- Recognizer for lower-case hex digits. -/
def isHexDigit (c : Char) : Bool :=
  (48 ≤ c.toNat && c.toNat ≤ 57) || (97 ≤ c.toNat && c.toNat ≤ 102)

/-- Externally visible operations of the pipeline, in program order.
Service-control and child-process constructors exist so that their
absence from every trace can be stated. -/
inductive Event where
  | rpcGetTip
  | pathCheck (p : String)
  | createDirAll (p : String)
  | copyFile (src dst : String)
  | readFile (p : String)
  | decodeCheckpoint (eventNum : Nat)
  | writeFile (p : String) (content : String)
  | renameFile (src dst : String)
  | setPermissions (p : String) (mode : Nat)
  | readDir (p : String)
  | logLine (s : String)
  | serviceStop (name : String)
  | serviceStart (name : String)
  | spawnChild
  | killProcessGroup
  | pollForArtifact (p : String)
  | sleepMs (n : Nat)
deriving DecidableEq

/-- Service-control / child-process operations: the operations the spec's
"Export Supervisor" would perform but the code never does. -/
def isProcessCtl : Event → Bool
  | .serviceStop _ => true
  | .serviceStart _ => true
  | .spawnChild => true
  | .killProcessGroup => true
  | .pollForArtifact _ => true
  | .sleepMs _ => true
  | _ => false

/-- Writes that create the artifact at a given path. -/
def isWriteTo (path : String) : Event → Bool
  | .writeFile p _ => p == path
  | _ => false

/-- `JammerConfig` from `jammer.rs` (paths as strings). -/
structure JammerConfig where
  html_root : String
  jams_dir : String
  manifest_path : String
  nockchain_rpc : String
  nockchain_bin : String
  nockchain_dir : String
  checkpoints_dir : String
  nockchain_user : Option String
  nockchain_service : String
deriving DecidableEq

/-- Environment of one `chkjam_to_jam` run: existence and modification
times of the two checkpoint files, and the outcome of each fallible
step (temp dir creation, copy, read, decode, conversion, encode, write). -/
structure ChkWorld where
  exists0 : Bool
  exists1 : Bool
  mtime0 : Option Nat
  mtime1 : Option Nat
  tempDirOk : Bool
  tempDirPath : String
  copyOk : Bool
  readOk : Bool
  decodeResult : Option Nat
  convertOk : Bool
  encodeResult : Option String
  writeOk : Bool
deriving DecidableEq

/-- Rust `Iterator::max_by_key` on nonempty input: when several elements
have an equally maximum key, the LAST one wins. -/
def maxByKeyLastAux (best : String × Nat) : List (String × Nat) → String × Nat
  | [] => best
  | c :: rest => maxByKeyLastAux (if best.2 ≤ c.2 then c else best) rest

/-- Rust `Iterator::max_by_key` over (path, mtime) pairs. -/
def maxByKeyLast : List (String × Nat) → Option String
  | [] => none
  | c :: rest => some (maxByKeyLastAux c rest).1

/-- The candidate (path, mtime) list of `chkjam_to_jam`: the array
`[0.chkjam, 1.chkjam]` filtered to files that exist and whose metadata
(and mtime) could be read. -/
def chkCandidates (w : ChkWorld) (checkpoints_dir : String) : List (String × Nat) :=
  (if w.exists0 then
    match w.mtime0 with
    | some t => [(checkpoints_dir ++ "/0.chkjam", t)]
    | none => []
  else []) ++
  (if w.exists1 then
    match w.mtime1 with
    | some t => [(checkpoints_dir ++ "/1.chkjam", t)]
    | none => []
  else [])

/-- The checkpoint source file `chkjam_to_jam` picks: the existing
checkpoint with the most recent modification time. -/
def selectedSource (w : ChkWorld) (checkpoints_dir : String) : Option String :=
  maxByKeyLast (chkCandidates w checkpoints_dir)

/-- `chkjam_to_jam` from `jammer.rs`: pick the newest of
`0.chkjam`/`1.chkjam`, copy it to a temp dir, read and decode it,
convert the kernel state and write it to `out_jam_path`.  Returns the
result together with the trace of operations performed.  (The hashing
log lines emitted from worker threads of other stages are not part of
this stage.) -/
def chkjam_to_jam (w : ChkWorld) (checkpoints_dir out_jam_path : String) :
    Except String Unit × List Event :=
  match selectedSource w checkpoints_dir with
  | none =>
    (.error ("No checkpoint found in " ++ checkpoints_dir ++ " (need 0.chkjam or 1.chkjam)"),
     [])
  | some source_path =>
    if !w.tempDirOk then
      (.error "Failed to create temp dir for checkpoint copy", [])
    else
      let temp_path := w.tempDirPath ++ "/checkpoint.chkjam"
      if !w.copyOk then
        (.error ("Failed to copy " ++ source_path), [.copyFile source_path temp_path])
      else if !w.readOk then
        (.error ("Failed to read copied checkpoint " ++ temp_path),
         [.copyFile source_path temp_path, .readFile temp_path])
      else
        match w.decodeResult with
        | none =>
          (.error "Checkpoint decode",
           [.copyFile source_path temp_path, .readFile temp_path])
        | some event_num =>
          let evs1 := [Event.copyFile source_path temp_path, Event.readFile temp_path,
                       Event.decodeCheckpoint event_num,
                       Event.logLine ("[jammer] Using checkpoint event_num " ++ toString event_num)]
          if !w.convertOk then
            (.error "Checkpoint decode", evs1)
          else
            match w.encodeResult with
            | none => (.error "ExportedState encode", evs1)
            | some bytes =>
              if !w.writeOk then
                (.error ("Failed to write jam file: " ++ out_jam_path),
                 evs1 ++ [.writeFile out_jam_path bytes])
              else
                (.ok (),
                 evs1 ++ [.writeFile out_jam_path bytes,
                          .logLine ("[jammer] Exported jam: " ++ out_jam_path)])

/-- Failure modes of `write_manifest_sync` (anyhow messages, as kinds). -/
inductive ManifestErr where
  | noFilesFound
  | hashFailed (msg : String)
  | writeTmpFailed
  | renameFailed
deriving DecidableEq

/-- The anyhow message each `ManifestErr` kind carries in the source. -/
def manifestErrMsg : ManifestErr → String
  | .noFilesFound => "No files found to hash"
  | .hashFailed m => m
  | .writeTmpFailed => "Failed to write temp manifest"
  | .renameFailed => "Failed to rename manifest"

/-- Environment of one `write_manifest_sync` run: which entry documents
exist, the (post-`flatten`) directory listing of the jams dir (`none`
models a `read_dir` error), per-file content reads, and the outcome of
the temp write and the rename. -/
structure ManifestWorld where
  indexExists : Bool
  privacyExists : Bool
  listing : Option (List String)
  readChunks : String → Except String (List Nat)
  writeTmpOk : Bool
  renameOk : Bool

/-- `collect_hashable_files` from `jammer.rs`: the entry documents that
exist, plus every file of the jams dir whose extension is `jam`, sorted. -/
def collect_hashable_files (w : ManifestWorld) (html_root jams_dir : String) : List String :=
  let entryFiles :=
    (if w.indexExists then [html_root ++ "/index.html"] else []) ++
    (if w.privacyExists then [html_root ++ "/privacy.html"] else [])
  let jamFiles :=
    match w.listing with
    | none => []
    | some names => (names.map (fun n => jams_dir ++ "/" ++ n)).filter hasJamExt
  sortPaths (entryFiles ++ jamFiles)

/-- `hash_file` composed with the relative-path computation of the
per-file hashing closure: streams the file through SHA-256 and
hex-encodes the digest, pairing it with the path relative to
`html_root`. -/
def hashResults (sha256 : List Nat → List Nat) (w : ManifestWorld) (html_root : String)
    (files : List String) : List (Except String (String × String)) :=
  files.map (fun file =>
    match w.readChunks file with
    | .error e => .error e
    | .ok bytes => .ok (hexEncode (sha256 bytes), relOf html_root file))

/-- The fan-in loop of `write_manifest_sync`: walks the joined results
in the original (sorted) spawn order — the join is per handle, so the
order in which worker threads complete cannot influence it — and stops
at the first error. -/
def collectPairs : List (Except String (String × String)) →
    Except String (List (String × String))
  | [] => .ok []
  | .error e :: _ => .error e
  | .ok p :: rest =>
    match collectPairs rest with
    | .error e => .error e
    | .ok ps => .ok (p :: ps)

/-- One manifest line: `"{}  {}\n"` with hash and relative path. -/
def manifestLine (p : String × String) : String := p.1 ++ "  " ++ p.2 ++ "\n"

/-- The manifest body accumulated by the fan-in loop. -/
def manifestContent (pairs : List (String × String)) : String :=
  String.join (pairs.map manifestLine)

/-- `write_manifest_sync` from `jammer.rs`: collect the files, fail with
`NoFilesFound` when there are none, hash them (fan-out per file, fan-in
joining the handles in the original sorted order), then publish the
content via a sibling `.tmp` path, a rename and a permission fix. -/
def manifestStartEvents (jams_dir manifest_path : String) : List Event :=
  [Event.logLine ("[jammer] Writing manifest: " ++ manifest_path),
   Event.readDir jams_dir]

def write_manifest_sync (sha256 : List Nat → List Nat) (w : ManifestWorld)
    (html_root jams_dir manifest_path : String) :
    Except ManifestErr Unit × List Event :=
  if (collect_hashable_files w html_root jams_dir).isEmpty then
    (.error .noFilesFound, manifestStartEvents jams_dir manifest_path)
  else
    match collectPairs (hashResults sha256 w html_root
        (collect_hashable_files w html_root jams_dir)) with
    | .error e => (.error (.hashFailed e), manifestStartEvents jams_dir manifest_path)
    | .ok pairs =>
      if !w.writeTmpOk then
        (.error .writeTmpFailed,
         manifestStartEvents jams_dir manifest_path ++
           [.writeFile (withExtension manifest_path "tmp") (manifestContent pairs)])
      else if !w.renameOk then
        (.error .renameFailed,
         manifestStartEvents jams_dir manifest_path ++
           [.writeFile (withExtension manifest_path "tmp") (manifestContent pairs),
            .renameFile (withExtension manifest_path "tmp") manifest_path])
      else
        (.ok (),
         manifestStartEvents jams_dir manifest_path ++
           [.writeFile (withExtension manifest_path "tmp") (manifestContent pairs),
            .renameFile (withExtension manifest_path "tmp") manifest_path,
            .setPermissions manifest_path 0o644,
            .logLine ("[jammer] Manifest written: " ++ manifest_path ++
              " (" ++ toString (collect_hashable_files w html_root jams_dir).length ++
              " files)")])

/-- Environment of one `run_jam` job: the tip-resolver outcome, whether
the marker's artifact already exists, the jams-dir creation outcome, and
the worlds of the export and manifest stages. -/
structure RunWorld where
  tip : Except String Nat
  jamExists : Bool
  createDirOk : Bool
  chk : ChkWorld
  mw : ManifestWorld

/-- The deterministic artifact path for a marker:
`jams_dir.join(format!("{}.jam", tip))`. -/
def jamPath (cfg : JammerConfig) (tip : Nat) : String :=
  cfg.jams_dir ++ "/" ++ toString tip ++ ".jam"

/-- `run_jam` from `jammer.rs`: resolve the tip, reject marker 0, return
early (after a manifest rebuild) when the artifact already exists,
otherwise export from the checkpoints and rebuild the manifest.  The
trace records every operation in program order. -/
def skipEvents (cfg : JammerConfig) (tip : Nat) : List Event :=
  [Event.rpcGetTip,
   Event.logLine ("[jammer] Tip block: " ++ toString tip),
   Event.pathCheck (jamPath cfg tip),
   Event.logLine ("[jammer] Jam already exists: " ++ jamPath cfg tip ++ " (skipping)")]

def exportPreEvents (cfg : JammerConfig) (tip : Nat) : List Event :=
  [Event.rpcGetTip,
   Event.logLine ("[jammer] Tip block: " ++ toString tip),
   Event.pathCheck (jamPath cfg tip),
   Event.createDirAll cfg.jams_dir,
   Event.logLine ("[jammer] Exporting from checkpoints to: " ++ jamPath cfg tip)]

def run_jam (sha256 : List Nat → List Nat) (w : RunWorld) (cfg : JammerConfig) :
    Except String String × List Event :=
  match w.tip with
  | .error e => (.error ("Failed to get tip block: " ++ e), [.rpcGetTip])
  | .ok tip =>
    if tip = 0 then (.error "Tip block is 0", [.rpcGetTip])
    else if w.jamExists then
      match (write_manifest_sync sha256 w.mw cfg.html_root cfg.jams_dir cfg.manifest_path).1 with
      | .error e =>
        (.error ("Manifest task failed: " ++ manifestErrMsg e),
         skipEvents cfg tip ++
           (write_manifest_sync sha256 w.mw cfg.html_root cfg.jams_dir cfg.manifest_path).2)
      | .ok _ =>
        (.ok ("Jam for block " ++ toString tip ++ " already exists"),
         skipEvents cfg tip ++
           (write_manifest_sync sha256 w.mw cfg.html_root cfg.jams_dir cfg.manifest_path).2)
    else if !w.createDirOk then
      (.error "Failed to create jams directory",
       [.rpcGetTip, .logLine ("[jammer] Tip block: " ++ toString tip),
        .pathCheck (jamPath cfg tip)])
    else
      match (chkjam_to_jam w.chk cfg.checkpoints_dir (jamPath cfg tip)).1 with
      | .error e =>
        (.error ("jam task failed: " ++ e),
         exportPreEvents cfg tip ++ (chkjam_to_jam w.chk cfg.checkpoints_dir (jamPath cfg tip)).2)
      | .ok _ =>
        match (write_manifest_sync sha256 w.mw cfg.html_root cfg.jams_dir cfg.manifest_path).1 with
        | .error e =>
          (.error ("jam task failed: " ++ manifestErrMsg e),
           exportPreEvents cfg tip ++
             (chkjam_to_jam w.chk cfg.checkpoints_dir (jamPath cfg tip)).2 ++
             (write_manifest_sync sha256 w.mw cfg.html_root cfg.jams_dir cfg.manifest_path).2)
        | .ok _ =>
          (.ok ("Exported jam for block " ++ toString tip),
           exportPreEvents cfg tip ++
             (chkjam_to_jam w.chk cfg.checkpoints_dir (jamPath cfg tip)).2 ++
             (write_manifest_sync sha256 w.mw cfg.html_root cfg.jams_dir cfg.manifest_path).2)

/-- `JobState` from `main.rs`: the single mutex-guarded controller
state.  The live log handle is modelled by the buffer's current content. -/
structure JobState where
  running : Bool
  started_at : Option Nat
  last_completed : Option String
  last_success : Option Bool
  last_output : Option String
  live_log : Option String
deriving DecidableEq

/-- `JobResult` from `main.rs` (the JSON body of a submit response). -/
structure JobResult where
  success : Bool
  output : String
deriving DecidableEq

/-- The 409 response of `make_jam` when a job is already running. -/
def rejectedResponse : Nat × JobResult := (409, ⟨false, "a job is already running"⟩)

/-- The 202 response of `make_jam` when the job is accepted. -/
def acceptedResponse : Nat × JobResult := (202, ⟨true, "job started"⟩)

/-- The locked section of `make_jam` (`main.rs` lines 104-119, after the
API-key check): reject with 409 when `running`, otherwise mark the job
running, record `started_at`, install a fresh live log and accept. -/
def make_jam (now : Nat) (s : JobState) : (Nat × JobResult) × JobState :=
  if s.running then (rejectedResponse, s)
  else
    (acceptedResponse,
     { s with running := true, started_at := some now, live_log := some "" })

/-- A sequence of `make_jam` submissions, serialized by the controller
mutex (the lock admits one critical section at a time, so any set of
concurrent calls is some such sequence). -/
def submitSeq (s : JobState) : List Nat → List (Nat × JobResult) × JobState
  | [] => ([], s)
  | t :: ts =>
    let r := make_jam t s
    let rest := submitSeq r.2 ts
    (r.1 :: rest.1, rest.2)

/-- Number of accepted submissions in a response list. -/
def countAccepted (rs : List (Nat × JobResult)) : Nat :=
  (rs.filter (fun r => r.1 = 202)).length

/-- Concatenation of the log lines of a trace, as `JobLog.append` would
accumulate them (each line followed by a newline). -/
def logTextOf (evs : List Event) : String :=
  String.join (evs.filterMap (fun e =>
    match e with
    | .logLine s => some (s ++ "\n")
    | _ => none))

/-- Boolean success of a job body result. -/
def exceptOk (r : Except String String) : Bool :=
  match r with
  | .ok _ => true
  | .error _ => false

/-- The completion line the spawned task appends before finalizing
(`[make-jam] completed in …` / `[make-jam] failed in …`). -/
def completionMsg (elapsed : String) (r : Except String String) : String :=
  match r with
  | .ok msg => "[make-jam] completed in " ++ elapsed ++ "s: " ++ msg
  | .error e => "[make-jam] failed in " ++ elapsed ++ "s: " ++ e

/-- The spawned job body of `make_jam` (`main.rs` lines 125-146): run
`run_jam`, append the completion line, then under the controller lock
clear `running`/`started_at`, stamp `last_completed`, record
`last_success`, move the log buffer's entire content into `last_output`
(the buffer's `take`) and drop the live handle. -/
def jobCompletion (sha256 : List Nat → List Nat) (w : RunWorld) (cfg : JammerConfig)
    (elapsed finished_at : String) (s : JobState) : JobState :=
  let r := (run_jam sha256 w cfg).1
  let buf := s.live_log.getD "" ++ logTextOf (run_jam sha256 w cfg).2 ++
    completionMsg elapsed r ++ "\n"
  { s with
    running := false
    started_at := none
    last_completed := some finished_at
    last_success := some (exceptOk r)
    last_output := some buf
    live_log := none }

/-- A concrete digest function (all-zero 32-byte digest) for witnesses. -/
def exampleHash : List Nat → List Nat := fun _ => List.replicate 32 0

/-- A concrete export-stage world in which every step succeeds. -/
def exampleChk : ChkWorld :=
  ⟨true, true, some 5, some 5, true, "/tmp/t", true, true, some 7, true, some "B", true⟩

/-- A concrete manifest-stage world in which every step succeeds. -/
def exampleMw : ManifestWorld :=
  ⟨true, true, some ["5.jam", "x.txt"], fun _ => .ok [1, 2], true, true⟩

/-- A concrete configuration (default-layout paths). -/
def exampleCfg : JammerConfig :=
  ⟨"/r", "/r/jams", "/r/jams/SHA256SUMS", "localhost:5556", "/bin/nockchain",
   "/root/nc", "/cp", none, "nockchain"⟩

/-- A concrete job world: tip 5, artifact absent, all stages succeed. -/
def exampleRun : RunWorld := ⟨.ok 5, false, true, exampleChk, exampleMw⟩

/-- Expose additional export-only operations (checkpoint copy/decode)
so a manifest-only trace can be told apart from an export. -/
def isExportOp : Event → Bool
  | .copyFile _ _ => true
  | .decodeCheckpoint _ => true
  | _ => false

theorem hexEncode_data_cons (b : Nat) (rest : List Nat) :
    (hexEncode (b :: rest)).data =
      hexDigitChar (b / 16) :: hexDigitChar (b % 16) :: (hexEncode rest).data := rfl

theorem hexEncode_length (bs : List Nat) : (hexEncode bs).data.length = 2 * bs.length := by
  induction bs with
  | nil => rfl
  | cons b rest ih =>
    rw [hexEncode_data_cons]
    simp only [List.length_cons, ih]
    omega

theorem hexDigitChar_isHex {n : Nat} (h : n < 16) : isHexDigit (hexDigitChar n) = true := by
  interval_cases n <;> decide

theorem hexEncode_all_hex (bs : List Nat) (hb : ∀ b ∈ bs, b < 256) :
    ∀ c ∈ (hexEncode bs).data, isHexDigit c = true := by
  induction bs with
  | nil => intro c hc; simp [hexEncode] at hc
  | cons b rest ih =>
    intro c hc
    rw [hexEncode_data_cons] at hc
    rcases List.mem_cons.mp hc with h1 | hc2
    · subst h1
      exact hexDigitChar_isHex (by have := hb b (by simp); omega)
    · rcases List.mem_cons.mp hc2 with h2 | h3
      · subst h2
        exact hexDigitChar_isHex (Nat.mod_lt _ (by omega))
      · exact ih (fun x hx => hb x (by simp [hx])) c h3

theorem sortPaths_perm (l : List String) : (sortPaths l).Perm l :=
  List.perm_insertionSort PathLe l

theorem sortPaths_sorted (l : List String) : List.Sorted PathLe (sortPaths l) :=
  List.sorted_insertionSort PathLe l

theorem sortPaths_eq_of_perm {l1 l2 : List String} (h : l1.Perm l2) :
    sortPaths l1 = sortPaths l2 :=
  List.eq_of_perm_of_sorted
    ((sortPaths_perm l1).trans (h.trans (sortPaths_perm l2).symm))
    (sortPaths_sorted l1) (sortPaths_sorted l2)

theorem sortPaths_eq_nil_iff (l : List String) : sortPaths l = [] ↔ l = [] := by
  constructor
  · intro h
    have := (sortPaths_perm l).length_eq
    rw [h] at this
    exact List.length_eq_zero.mp this.symm
  · intro h
    subst h
    rfl

theorem chkjam_ctl_free (w : ChkWorld) (dir out : String) :
    (chkjam_to_jam w dir out).2.filter isProcessCtl = [] := by
  unfold chkjam_to_jam
  repeat' split
  all_goals rfl

theorem manifest_ctl_free (sha256 : List Nat → List Nat) (w : ManifestWorld)
    (root jams man : String) :
    (write_manifest_sync sha256 w root jams man).2.filter isProcessCtl = [] := by
  unfold write_manifest_sync
  repeat' split
  all_goals rfl

theorem manifest_export_free (sha256 : List Nat → List Nat) (w : ManifestWorld)
    (root jams man : String) :
    (write_manifest_sync sha256 w root jams man).2.filter isExportOp = [] := by
  unfold write_manifest_sync
  repeat' split
  all_goals rfl

theorem run_jam_ctl_free (sha256 : List Nat → List Nat) (w : RunWorld) (cfg : JammerConfig) :
    (run_jam sha256 w cfg).2.filter isProcessCtl = [] := by
  unfold run_jam
  repeat' split
  all_goals
    simp [List.filter_append, chkjam_ctl_free, manifest_ctl_free, skipEvents,
      exportPreEvents, isProcessCtl, List.filter]

theorem collectPairs_ok_forall2 :
    ∀ (rs : List (Except String (String × String))) (ps : List (String × String)),
      collectPairs rs = .ok ps → List.Forall₂ (fun r p => r = .ok p) rs ps := by
  intro rs
  induction rs with
  | nil =>
    intro ps h
    simp only [collectPairs, Except.ok.injEq] at h
    subst h
    exact .nil
  | cons r rest ih =>
    intro ps h
    cases r with
    | error e => simp [collectPairs] at h
    | ok p =>
      simp only [collectPairs] at h
      cases hrest : collectPairs rest with
      | error e => rw [hrest] at h; simp at h
      | ok ps' =>
        rw [hrest] at h
        simp only [Except.ok.injEq] at h
        subst h
        exact .cons rfl (ih ps' hrest)

theorem collect_hashable_files_listing_perm (w : ManifestWorld) (root jams : String)
    {l1 l2 : List String} (hl1 : w.listing = some l1) (hperm : l1.Perm l2) :
    collect_hashable_files w root jams =
      collect_hashable_files { w with listing := some l2 } root jams := by
  unfold collect_hashable_files
  rw [hl1]
  exact sortPaths_eq_of_perm
    (List.Perm.append_left _ (List.Perm.filter _ (hperm.map _)))

theorem write_manifest_listing_perm (sha256 : List Nat → List Nat) (w : ManifestWorld)
    (root jams man : String) {l1 l2 : List String}
    (hl1 : w.listing = some l1) (hperm : l1.Perm l2) :
    write_manifest_sync sha256 w root jams man =
      write_manifest_sync sha256 { w with listing := some l2 } root jams man := by
  unfold write_manifest_sync
  rw [collect_hashable_files_listing_perm w root jams hl1 hperm]
  rfl

theorem write_manifest_noFiles_iff (sha256 : List Nat → List Nat) (w : ManifestWorld)
    (root jams man : String) :
    (write_manifest_sync sha256 w root jams man).1 = .error .noFilesFound ↔
      collect_hashable_files w root jams = [] := by
  unfold write_manifest_sync
  by_cases hie : (collect_hashable_files w root jams).isEmpty = true
  · rw [if_pos hie]
    constructor
    · intro _
      exact List.isEmpty_iff.mp hie
    · intro _
      rfl
  · rw [if_neg hie]
    constructor
    · intro h
      exfalso
      repeat' split at h
      all_goals simp at h
    · intro h
      exact absurd (List.isEmpty_iff.mpr h) hie

theorem collect_eq_nil_iff (w : ManifestWorld) (root jams : String) :
    collect_hashable_files w root jams = [] ↔
      (w.indexExists = false ∧ w.privacyExists = false ∧
       ((w.listing.getD []).map (fun n => jams ++ "/" ++ n)).filter hasJamExt = []) := by
  unfold collect_hashable_files
  rw [sortPaths_eq_nil_iff, List.append_eq_nil]
  cases hl : w.listing with
  | none =>
    cases hi : w.indexExists <;> cases hp : w.privacyExists <;> simp
  | some names =>
    cases hi : w.indexExists <;> cases hp : w.privacyExists <;> simp

theorem submitSeq_running (s : JobState) (h : s.running = true) :
    ∀ ts, submitSeq s ts = (ts.map (fun _ => rejectedResponse), s) := by
  intro ts
  induction ts with
  | nil => rfl
  | cons t ts ih =>
    simp only [submitSeq, make_jam, h, if_true, List.map_cons]
    rw [ih]

theorem countAccepted_all_rejected (ts : List Nat) :
    countAccepted (ts.map (fun _ => rejectedResponse)) = 0 := by
  induction ts with
  | nil => rfl
  | cons t ts ih =>
    simp only [List.map_cons, countAccepted, List.filter] at ih ⊢
    rw [show (decide (rejectedResponse.1 = 202)) = false from rfl]
    exact ih

/-- Claim C9: whenever the tip resolver returns height 0, the job fails
with the "Tip block is 0" error before the artifact idempotency check,
any export, and any manifest write — the trace holds only the RPC call,
so no filesystem side effect occurs. -/
theorem run_jam_tip_zero_aborts (sha256 : List Nat → List Nat) (w : RunWorld)
    (cfg : JammerConfig) (h : w.tip = .ok 0) :
    run_jam sha256 w cfg = (.error "Tip block is 0", [.rpcGetTip]) := by
  unfold run_jam
  rw [h]
  rfl

theorem run_jam_tip_zero_aborts_witness :
    run_jam exampleHash { exampleRun with tip := .ok 0 } exampleCfg =
      (.error "Tip block is 0", [.rpcGetTip]) :=
  run_jam_tip_zero_aborts exampleHash { exampleRun with tip := .ok 0 } exampleCfg rfl

/-- Claim C8: on every job body completion — pipeline success or failure —
the controller sets `running := false`, clears `started_at`, stamps
`last_completed` with the completion time, records `last_success` as the
pipeline's success, moves the entire live log content (with the appended
completion line) into `last_output`, and drops the live log handle. -/
theorem job_completion_freezes_outcome (sha256 : List Nat → List Nat) (w : RunWorld)
    (cfg : JammerConfig) (elapsed finished_at : String) (s : JobState) :
    (jobCompletion sha256 w cfg elapsed finished_at s).running = false ∧
    (jobCompletion sha256 w cfg elapsed finished_at s).started_at = none ∧
    (jobCompletion sha256 w cfg elapsed finished_at s).last_completed = some finished_at ∧
    (jobCompletion sha256 w cfg elapsed finished_at s).last_success =
      some (exceptOk (run_jam sha256 w cfg).1) ∧
    (jobCompletion sha256 w cfg elapsed finished_at s).last_output =
      some (s.live_log.getD "" ++ logTextOf (run_jam sha256 w cfg).2 ++
        completionMsg elapsed (run_jam sha256 w cfg).1 ++ "\n") ∧
    (jobCompletion sha256 w cfg elapsed finished_at s).live_log = none :=
  ⟨rfl, rfl, rfl, rfl, rfl, rfl⟩

/-- Claim C3 (amended): the pipeline never performs any service-control
or child-process operation — there is no graceful stop before the export
and no restart after it; the export runs in-process against the
checkpoint files.  (The claim's stop/wait/restart protocol is absent
from the code: `run_jam`'s doc comment says "no node stop/start".) -/
theorem pipeline_issues_no_service_control (sha256 : List Nat → List Nat)
    (w : RunWorld) (cfg : JammerConfig) :
    (run_jam sha256 w cfg).2.filter isProcessCtl = [] :=
  run_jam_ctl_free sha256 w cfg

/-- Claim C3 counterexample: a concrete job whose marker artifact is
absent and whose export executes (the artifact write is in the trace),
yet the trace contains no service stop, service start, spawn, poll,
kill, or sleep — so no graceful stop precedes the export and no restart
follows it, contradicting the claim. -/
theorem pipeline_service_stop_counterexample :
    (run_jam exampleHash exampleRun exampleCfg).2.filter isProcessCtl = [] ∧
    (run_jam exampleHash exampleRun exampleCfg).2.filter (isWriteTo "/r/jams/5.jam") =
      [.writeFile "/r/jams/5.jam" "B"] :=
  ⟨rfl, rfl⟩

/-- Claim C4 (amended): the export stage runs fully in-process — it never
spawns a child, polls for the artifact, sleeps, or kills a process group;
on the given success conditions its whole behaviour is the explicit
six-step trace ending in its own direct write of the artifact, which is
what signals completion. -/
theorem export_stage_in_process (w : ChkWorld) (dir out src : String) (n : Nat) (bytes : String)
    (hsel : selectedSource w dir = some src) (htd : w.tempDirOk = true)
    (hcp : w.copyOk = true) (hrd : w.readOk = true) (hdec : w.decodeResult = some n)
    (hcv : w.convertOk = true) (henc : w.encodeResult = some bytes) (hwr : w.writeOk = true) :
    chkjam_to_jam w dir out =
      (.ok (),
       [.copyFile src (w.tempDirPath ++ "/checkpoint.chkjam"),
        .readFile (w.tempDirPath ++ "/checkpoint.chkjam"),
        .decodeCheckpoint n,
        .logLine ("[jammer] Using checkpoint event_num " ++ toString n),
        .writeFile out bytes,
        .logLine ("[jammer] Exported jam: " ++ out)]) ∧
    (chkjam_to_jam w dir out).2.filter isProcessCtl = [] := by
  refine ⟨?_, chkjam_ctl_free w dir out⟩
  simp [chkjam_to_jam, hsel, htd, hcp, hrd, hdec, hcv, henc, hwr]

theorem export_stage_in_process_witness :
    chkjam_to_jam exampleChk "/cp" "/j/5.jam" =
      (.ok (),
       [.copyFile "/cp/1.chkjam" "/tmp/t/checkpoint.chkjam",
        .readFile "/tmp/t/checkpoint.chkjam",
        .decodeCheckpoint 7,
        .logLine "[jammer] Using checkpoint event_num 7",
        .writeFile "/j/5.jam" "B",
        .logLine "[jammer] Exported jam: /j/5.jam"]) ∧
    (chkjam_to_jam exampleChk "/cp" "/j/5.jam").2.filter isProcessCtl = [] :=
  export_stage_in_process exampleChk "/cp" "/j/5.jam" "/cp/1.chkjam" 7 "B"
    rfl rfl rfl rfl rfl rfl rfl rfl

/-- Claim C4 counterexample: a successful concrete export whose trace
contains no poll, no kill, no spawned child — completion is detected by
the stage's own artifact write, and the process group is never killed,
while the claim requires polling and an unconditional kill in both the
artifact-found and timeout cases (neither case exists in the code). -/
theorem export_supervisor_counterexample :
    (chkjam_to_jam exampleChk "/cp" "/j/5.jam").1 = .ok () ∧
    (chkjam_to_jam exampleChk "/cp" "/j/5.jam").2.filter isProcessCtl = [] ∧
    (chkjam_to_jam exampleChk "/cp" "/j/5.jam").2.filter (isWriteTo "/j/5.jam") =
      [.writeFile "/j/5.jam" "B"] :=
  ⟨rfl, rfl, rfl⟩

/-- Claim C10: the export reads its input by choosing, among the
checkpoint files `0.chkjam` and `1.chkjam` that exist, the one with the
most recent modification time (on a tie the iterator's `max_by_key`
returns the later candidate, `1.chkjam`); the chosen file is first
copied to the temp directory, so every trace starts with that copy; and
when neither file exists the stage fails with the "No checkpoint found"
error having performed no operation at all — in particular no artifact
write. -/
theorem checkpoint_selection_newest (w : ChkWorld) (dir out : String) (t0 t1 : Nat) :
    (w.exists0 = false → w.exists1 = false →
      chkjam_to_jam w dir out =
        (.error ("No checkpoint found in " ++ dir ++ " (need 0.chkjam or 1.chkjam)"), [])) ∧
    (w.exists0 = true → w.exists1 = true → w.mtime0 = some t0 → w.mtime1 = some t1 →
      selectedSource w dir =
        some (if t0 ≤ t1 then dir ++ "/1.chkjam" else dir ++ "/0.chkjam")) ∧
    (w.exists0 = true → w.exists1 = false → w.mtime0 = some t0 →
      selectedSource w dir = some (dir ++ "/0.chkjam")) ∧
    (w.exists0 = false → w.exists1 = true → w.mtime1 = some t1 →
      selectedSource w dir = some (dir ++ "/1.chkjam")) ∧
    (∀ src, selectedSource w dir = some src → w.tempDirOk = true →
      (chkjam_to_jam w dir out).2.head? =
        some (.copyFile src (w.tempDirPath ++ "/checkpoint.chkjam"))) := by
  refine ⟨?_, ?_, ?_, ?_, ?_⟩
  · intro h0 h1
    simp [chkjam_to_jam, selectedSource, chkCandidates, h0, h1, maxByKeyLast]
  · intro h0 h1 hm0 hm1
    simp only [selectedSource, chkCandidates, h0, h1, hm0, hm1, if_true,
      List.cons_append, List.nil_append, maxByKeyLast, maxByKeyLastAux]
    by_cases h : t0 ≤ t1 <;> simp [h]
  · intro h0 h1 hm0
    simp [selectedSource, chkCandidates, h0, h1, hm0, maxByKeyLast, maxByKeyLastAux]
  · intro h0 h1 hm1
    simp [selectedSource, chkCandidates, h0, h1, hm1, maxByKeyLast, maxByKeyLastAux]
  · intro src hsel htd
    simp only [chkjam_to_jam, hsel, htd, Bool.not_true, Bool.false_eq_true, if_false]
    repeat' split
    all_goals rfl

theorem checkpoint_selection_newest_witness :
    chkjam_to_jam { exampleChk with exists0 := false, exists1 := false } "/cp" "/j/5.jam" =
      (.error "No checkpoint found in /cp (need 0.chkjam or 1.chkjam)", []) ∧
    selectedSource exampleChk "/cp" = some "/cp/1.chkjam" ∧
    (chkjam_to_jam exampleChk "/cp" "/j/5.jam").2.head? =
      some (.copyFile "/cp/1.chkjam" "/tmp/t/checkpoint.chkjam") := by
  refine ⟨?_, ?_, ?_⟩
  · exact (checkpoint_selection_newest
      { exampleChk with exists0 := false, exists1 := false } "/cp" "/j/5.jam" 0 0).1 rfl rfl
  · have h := (checkpoint_selection_newest exampleChk "/cp" "/j/5.jam" 5 5).2.1
      rfl rfl rfl rfl
    simpa using h
  · exact (checkpoint_selection_newest exampleChk "/cp" "/j/5.jam" 5 5).2.2.2.2
      "/cp/1.chkjam" rfl rfl

/-- Claim C2: when the artifact for the resolved marker already exists,
the job short-circuits: its trace is exactly the skip log lines plus one
manifest rebuild — it contains no checkpoint copy or decode and no
service-control operation — and on manifest success the job reports that
the jam for the block already exists.  The artifact path is the fixed
deterministic `jams_dir/<marker>.jam`, so a second run for the same
marker performs the export at most once. -/
theorem export_idempotent_skip (sha256 : List Nat → List Nat) (w : RunWorld)
    (cfg : JammerConfig) (tip : Nat)
    (htip : w.tip = .ok tip) (h0 : tip ≠ 0) (hje : w.jamExists = true) :
    (run_jam sha256 w cfg).2 =
      skipEvents cfg tip ++
        (write_manifest_sync sha256 w.mw cfg.html_root cfg.jams_dir cfg.manifest_path).2 ∧
    (run_jam sha256 w cfg).2.filter isExportOp = [] ∧
    (run_jam sha256 w cfg).2.filter isProcessCtl = [] ∧
    jamPath cfg tip = cfg.jams_dir ++ "/" ++ toString tip ++ ".jam" ∧
    ((write_manifest_sync sha256 w.mw cfg.html_root cfg.jams_dir cfg.manifest_path).1 = .ok () →
      (run_jam sha256 w cfg).1 = .ok ("Jam for block " ++ toString tip ++ " already exists")) := by
  have hbase : run_jam sha256 w cfg =
      match (write_manifest_sync sha256 w.mw cfg.html_root cfg.jams_dir cfg.manifest_path).1 with
      | .error e =>
        (.error ("Manifest task failed: " ++ manifestErrMsg e),
         skipEvents cfg tip ++
           (write_manifest_sync sha256 w.mw cfg.html_root cfg.jams_dir cfg.manifest_path).2)
      | .ok _ =>
        (.ok ("Jam for block " ++ toString tip ++ " already exists"),
         skipEvents cfg tip ++
           (write_manifest_sync sha256 w.mw cfg.html_root cfg.jams_dir cfg.manifest_path).2) := by
    unfold run_jam
    rw [htip]
    dsimp only
    rw [if_neg h0, if_pos hje]
  refine ⟨?_, ?_, run_jam_ctl_free sha256 w cfg, rfl, ?_⟩
  · rw [hbase]
    split <;> rfl
  · rw [hbase]
    split <;>
      simp [List.filter_append, manifest_export_free, skipEvents, isExportOp, List.filter]
  · intro hm
    rw [hbase, hm]

theorem export_idempotent_skip_witness :
    (run_jam exampleHash { exampleRun with jamExists := true } exampleCfg).1 =
      .ok "Jam for block 5 already exists" :=
  (export_idempotent_skip exampleHash { exampleRun with jamExists := true } exampleCfg 5
    rfl (by decide) rfl).2.2.2.2 rfl

/-- Claim C6: the manifest rebuild fails with `NoFilesFound` iff the
combined file set (existing entry documents plus `.jam` files of the
artifacts directory) is empty; a directory read error contributes no
additional files (the file set equals that of an empty listing) but is
not itself fatal — with a read error the stage reports `NoFilesFound`
exactly when no entry document exists either. -/
theorem manifest_no_files_found_iff (sha256 : List Nat → List Nat) (w : ManifestWorld)
    (root jams man : String) :
    ((write_manifest_sync sha256 w root jams man).1 = .error .noFilesFound ↔
      collect_hashable_files w root jams = []) ∧
    collect_hashable_files { w with listing := none } root jams =
      collect_hashable_files { w with listing := some [] } root jams ∧
    ((write_manifest_sync sha256 { w with listing := none } root jams man).1 =
        .error .noFilesFound ↔
      (w.indexExists = false ∧ w.privacyExists = false)) := by
  refine ⟨write_manifest_noFiles_iff sha256 w root jams man, rfl, ?_⟩
  rw [write_manifest_noFiles_iff, collect_eq_nil_iff]
  simp

/-- Claim C5: for a fixed file set with fixed contents the manifest
rebuild is deterministic and has the documented layout: the whole output
(result and trace, hence the written bytes) is identical under any
permutation of the directory-enumeration order (the hash fan-in joins
the worker handles in the original sorted order, so hash-completion
order cannot influence it — in this embedding it has no representation);
the hashed file list is sorted by path; each successfully hashed file
contributes the pair (hex SHA-256 digest of its bytes, path relative to
the HTML root), and the content is the concatenation of lines
`"<digest>  <rel>\n"` in that sorted order; a 32-byte digest of bytes
hex-encodes to exactly 64 lower-case hex characters. -/
theorem manifest_rebuild_deterministic (sha256 : List Nat → List Nat) (w : ManifestWorld)
    (root jams man : String) (l1 l2 : List String)
    (hl1 : w.listing = some l1) (hperm : l1.Perm l2)
    (hlen : ∀ bs, (sha256 bs).length = 32)
    (hbyte : ∀ bs b, b ∈ sha256 bs → b < 256) :
    write_manifest_sync sha256 w root jams man =
      write_manifest_sync sha256 { w with listing := some l2 } root jams man ∧
    List.Sorted PathLe (collect_hashable_files w root jams) ∧
    (∀ pairs, collectPairs (hashResults sha256 w root
        (collect_hashable_files w root jams)) = .ok pairs →
      List.Forall₂ (fun f p => ∃ bytes, w.readChunks f = .ok bytes ∧
          p = (hexEncode (sha256 bytes), relOf root f))
        (collect_hashable_files w root jams) pairs ∧
      manifestContent pairs = String.join (pairs.map manifestLine)) ∧
    (∀ bs, (hexEncode (sha256 bs)).data.length = 64) ∧
    (∀ bs c, c ∈ (hexEncode (sha256 bs)).data → isHexDigit c = true) := by
  refine ⟨write_manifest_listing_perm sha256 w root jams man hl1 hperm,
          sortPaths_sorted _, ?_, ?_, ?_⟩
  · intro pairs hp
    refine ⟨?_, rfl⟩
    have h2 := collectPairs_ok_forall2 _ _ hp
    unfold hashResults at h2
    rw [List.forall₂_map_left_iff] at h2
    refine h2.imp ?_
    intro f p hfp
    cases hrc : w.readChunks f with
    | error e =>
      rw [hrc] at hfp
      simp at hfp
    | ok bytes =>
      rw [hrc] at hfp
      simp only [Except.ok.injEq] at hfp
      exact ⟨bytes, rfl, hfp.symm⟩
  · intro bs
    rw [hexEncode_length, hlen]
  · intro bs c hc
    exact hexEncode_all_hex _ (fun b hb => hbyte bs b hb) c hc

theorem manifest_rebuild_deterministic_witness :
    write_manifest_sync exampleHash exampleMw "/r" "/r/jams" "/r/jams/SHA256SUMS" =
      write_manifest_sync exampleHash { exampleMw with listing := some ["x.txt", "5.jam"] }
        "/r" "/r/jams" "/r/jams/SHA256SUMS" :=
  (manifest_rebuild_deterministic exampleHash exampleMw "/r" "/r/jams" "/r/jams/SHA256SUMS"
    ["5.jam", "x.txt"] ["x.txt", "5.jam"] rfl (List.Perm.swap "x.txt" "5.jam" [])
    (fun _ => by simp [exampleHash])
    (fun bs b hb => by
      simp only [exampleHash] at hb
      have := List.eq_of_mem_replicate hb
      omega)).1

/-- Claim C7 (amended): provided the manifest file name's extension is
not already `tmp` — so the temporary path `<stem>.tmp` differs from the
final path, as it does for the default `SHA256SUMS` — publication writes
the complete manifest content to the sibling temporary path, renames it
over the final path in a single rename step, then normalizes the
permissions to mode 0644; the final manifest path itself is never the
target of a direct write.  When the configured manifest path's own
extension is `tmp`, `with_extension("tmp")` returns the same path and
the content is written to the final path directly (see the
counterexample), so the claim holds only under this proviso. -/
theorem manifest_publication_atomic (sha256 : List Nat → List Nat) (w : ManifestWorld)
    (root jams man : String) (pairs : List (String × String))
    (hne : withExtension man "tmp" ≠ man)
    (hnonempty : (collect_hashable_files w root jams).isEmpty = false)
    (hpairs : collectPairs (hashResults sha256 w root
      (collect_hashable_files w root jams)) = .ok pairs)
    (hw : w.writeTmpOk = true) (hr : w.renameOk = true) :
    write_manifest_sync sha256 w root jams man =
      (.ok (),
       manifestStartEvents jams man ++
         [.writeFile (withExtension man "tmp") (manifestContent pairs),
          .renameFile (withExtension man "tmp") man,
          .setPermissions man 0o644,
          .logLine ("[jammer] Manifest written: " ++ man ++ " (" ++
            toString (collect_hashable_files w root jams).length ++ " files)")]) ∧
    (write_manifest_sync sha256 w root jams man).2.filter (isWriteTo man) = [] := by
  have hbase : write_manifest_sync sha256 w root jams man =
      (.ok (),
       manifestStartEvents jams man ++
         [.writeFile (withExtension man "tmp") (manifestContent pairs),
          .renameFile (withExtension man "tmp") man,
          .setPermissions man 0o644,
          .logLine ("[jammer] Manifest written: " ++ man ++ " (" ++
            toString (collect_hashable_files w root jams).length ++ " files)")]) := by
    unfold write_manifest_sync
    rw [hnonempty, hpairs, hw, hr]
    simp
  refine ⟨hbase, ?_⟩
  rw [hbase]
  simp only [manifestStartEvents, List.cons_append, List.nil_append, List.filter, isWriteTo]
  rw [show ((withExtension man "tmp" == man) = false) from beq_eq_false_iff_ne.mpr hne]

/-- Claim C7 counterexample: for the configurable manifest path
`/r/jams/SHA256SUMS.tmp`, `with_extension("tmp")` yields the path
itself, so the "temporary" write targets the final manifest path
directly (one write event to the final path is in the trace) and the
subsequent rename renames the path onto itself: publication is not via
a distinct sibling temporary path there. -/
theorem manifest_tmp_extension_counterexample :
    withExtension "/r/jams/SHA256SUMS.tmp" "tmp" = "/r/jams/SHA256SUMS.tmp" ∧
    ((write_manifest_sync exampleHash exampleMw "/r" "/r/jams"
        "/r/jams/SHA256SUMS.tmp").2.filter
      (isWriteTo "/r/jams/SHA256SUMS.tmp")).length = 1 :=
  ⟨rfl, rfl⟩

theorem manifest_publication_atomic_witness :
    write_manifest_sync exampleHash exampleMw "/r" "/r/jams" "/r/jams/SHA256SUMS" =
      (.ok (),
       manifestStartEvents "/r/jams" "/r/jams/SHA256SUMS" ++
         [.writeFile (withExtension "/r/jams/SHA256SUMS" "tmp")
            (manifestContent
              [(hexEncode (List.replicate 32 0), "index.html"),
               (hexEncode (List.replicate 32 0), "jams/5.jam"),
               (hexEncode (List.replicate 32 0), "privacy.html")]),
          .renameFile (withExtension "/r/jams/SHA256SUMS" "tmp") "/r/jams/SHA256SUMS",
          .setPermissions "/r/jams/SHA256SUMS" 0o644,
          .logLine ("[jammer] Manifest written: " ++ "/r/jams/SHA256SUMS" ++ " (" ++
            toString (collect_hashable_files exampleMw "/r" "/r/jams").length ++
            " files)")]) ∧
    (write_manifest_sync exampleHash exampleMw "/r" "/r/jams"
      "/r/jams/SHA256SUMS").2.filter (isWriteTo "/r/jams/SHA256SUMS") = [] :=
  manifest_publication_atomic exampleHash exampleMw "/r" "/r/jams" "/r/jams/SHA256SUMS"
    [(hexEncode (List.replicate 32 0), "index.html"),
     (hexEncode (List.replicate 32 0), "jams/5.jam"),
     (hexEncode (List.replicate 32 0), "privacy.html")]
    (by decide) rfl rfl rfl rfl

/-- Claim C1: submissions are serialized by the controller mutex, so any
set of concurrent `submit` calls is some serialized sequence.  While a
job is running every call is rejected with HTTP 409 and the body
"a job is already running", and the `JobState` is left untouched.  From
an idle state the first call is accepted with HTTP 202 (starting the
job: `running := true`) and every later call of the running window is
rejected without state mutation.  In every sequence at most one call is
accepted, so at most one job body executes at a time. -/
theorem submit_single_flight (s : JobState) (t : Nat) (ts : List Nat) :
    (s.running = true →
      submitSeq s (t :: ts) = ((t :: ts).map (fun _ => rejectedResponse), s)) ∧
    (s.running = false →
      submitSeq s (t :: ts) =
        (acceptedResponse :: ts.map (fun _ => rejectedResponse),
         { s with running := true, started_at := some t, live_log := some "" })) ∧
    countAccepted (submitSeq s (t :: ts)).1 ≤ 1 ∧
    rejectedResponse = (409, ⟨false, "a job is already running"⟩) ∧
    acceptedResponse = (202, ⟨true, "job started"⟩) := by
  have hidle : s.running = false →
      submitSeq s (t :: ts) =
        (acceptedResponse :: ts.map (fun _ => rejectedResponse),
         { s with running := true, started_at := some t, live_log := some "" }) := by
    intro h
    simp only [submitSeq, make_jam, h, if_false, Bool.false_eq_true]
    rw [submitSeq_running { s with running := true, started_at := some t, live_log := some "" }
      rfl ts]
  refine ⟨fun h => submitSeq_running s h (t :: ts), hidle, ?_, rfl, rfl⟩
  cases hr : s.running with
  | true =>
    rw [submitSeq_running s hr (t :: ts)]
    rw [countAccepted_all_rejected]
    omega
  | false =>
    rw [hidle hr]
    simp only [countAccepted, List.filter]
    rw [show (decide (acceptedResponse.1 = 202)) = true from rfl]
    simp only [List.length_cons]
    have h0 : countAccepted (ts.map (fun _ => rejectedResponse)) = 0 :=
      countAccepted_all_rejected ts
    unfold countAccepted at h0
    omega

theorem submit_single_flight_witness :
    submitSeq ⟨true, some 3, none, none, none, some ""⟩ [1, 2] =
      ([rejectedResponse, rejectedResponse], ⟨true, some 3, none, none, none, some ""⟩) ∧
    submitSeq ⟨false, none, none, none, none, none⟩ [1, 2] =
      ([acceptedResponse, rejectedResponse], ⟨true, some 1, none, none, none, some ""⟩) :=
  ⟨(submit_single_flight ⟨true, some 3, none, none, none, some ""⟩ 1 [2]).1 rfl,
   (submit_single_flight ⟨false, none, none, none, none, none⟩ 1 [2]).2.1 rfl⟩
